import Mathlib

/-!
Verification of the evolutionary ship-duel simulator.

The Rust sources (`game.rs`, `genome.rs`, `simulation.rs`, `evolution.rs`) are
shallowly embedded below.  `f32` arithmetic is modelled by `ℝ`; the Rust `%`
operator on floats (truncated remainder) is modelled by `rustRem`; the `rand`
crate generators are modelled by streams whose values satisfy the documented
contracts (`gen_range(0..n) < n`, `gen::<f32>() ∈ [0,1)`,
`gen_range(a..b) ∈ [a,b)`).
-/

noncomputable section

namespace DuelSim

/-! ## Constants from `game.rs` -/

def ARENA_WIDTH : ℝ := 800
def ARENA_HEIGHT : ℝ := 600
def SHIP_ROTATION_SPEED : ℝ := 5
def SHIP_THRUST : ℝ := 200
def SHIP_DRAG : ℝ := 0.98
def PROJECTILE_SPEED : ℝ := 400
def PROJECTILE_LIFETIME : ℝ := 2
def FIRE_COOLDOWN : ℝ := 0.25
def MATCH_DURATION : ℝ := 30
def SHIP_RADIUS : ℝ := 12
def PROJECTILE_RADIUS : ℝ := 2
def MAX_PROJECTILES_PER_SHIP : ℕ := 5
def MAX_SHIP_SPEED : ℝ := 300

/-! ## Geometry helpers from `game.rs`

Rust `val % max` on `f32` is the truncated remainder
`val - max * trunc (val / max)`; `trunc` rounds toward zero. -/

def rustTrunc (x : ℝ) : ℤ := if 0 ≤ x then ⌊x⌋ else ⌈x⌉

def rustRem (a m : ℝ) : ℝ := a - m * (rustTrunc (a / m) : ℝ)

/-- `pub fn wrap(val: f32, max: f32) -> f32 { ((val % max) + max) % max }` -/
def wrap (val m : ℝ) : ℝ := rustRem (rustRem val m + m) m

/-- `pub fn toroidal_diff(a: f32, b: f32, max: f32) -> f32` -/
def toroidal_diff (a b m : ℝ) : ℝ :=
  let d := a - b
  if d > m / 2 then d - m
  else if d < -m / 2 then d + m
  else d

/-- Rust `x.clamp(lo, hi)`. -/
def rclamp (x lo hi : ℝ) : ℝ := if x < lo then lo else if x > hi then hi else x

lemma rustRem_of_nonneg {a m : ℝ} (hm : 0 < m) (ha : 0 ≤ a) :
    rustRem a m = m * Int.fract (a / m) := by
  have hx : 0 ≤ a / m := div_nonneg ha hm.le
  have htr : rustTrunc (a / m) = ⌊a / m⌋ := by simp [rustTrunc, hx]
  have hma : m * (a / m) = a := by field_simp
  rw [rustRem, htr, Int.fract, mul_sub, hma]

lemma rustRem_nonneg_lt {a m : ℝ} (hm : 0 < m) (ha : 0 ≤ a) :
    0 ≤ rustRem a m ∧ rustRem a m < m := by
  rw [rustRem_of_nonneg hm ha]
  constructor
  · exact mul_nonneg hm.le (Int.fract_nonneg _)
  · have := Int.fract_lt_one (a / m)
    nlinarith

lemma rustRem_of_neg {a m : ℝ} (hm : 0 < m) (ha : a < 0) :
    -m < rustRem a m ∧ rustRem a m ≤ 0 := by
  have hx : ¬ (0 ≤ a / m) := by
    simp only [not_le]
    exact div_neg_of_neg_of_pos ha hm
  have htr : rustTrunc (a / m) = ⌈a / m⌉ := by simp [rustTrunc, hx]
  rw [rustRem, htr]
  have h1 : (⌈a / m⌉ : ℝ) < a / m + 1 := Int.ceil_lt_add_one _
  have h2 : a / m ≤ (⌈a / m⌉ : ℝ) := Int.le_ceil _
  have hma : m * (a / m) = a := by field_simp
  constructor <;> nlinarith

lemma wrap_bounds (v m : ℝ) (hm : 0 < m) : 0 ≤ wrap v m ∧ wrap v m < m := by
  have h : 0 ≤ rustRem v m + m := by
    rcases le_or_lt 0 v with hv | hv
    · have := rustRem_nonneg_lt hm hv
      linarith [this.1]
    · have := rustRem_of_neg hm hv
      linarith [this.1]
  exact rustRem_nonneg_lt hm h

lemma wrap_eq_self {v m : ℝ} (h0 : 0 ≤ v) (h1 : v < m) : wrap v m = v := by
  have hm : 0 < m := lt_of_le_of_lt h0 h1
  have hfl : ⌊v / m⌋ = 0 := by
    rw [Int.floor_eq_zero_iff]
    constructor
    · exact div_nonneg h0 hm.le
    · rw [div_lt_one hm]; exact h1
  have hr1 : rustRem v m = v := by
    have : rustTrunc (v / m) = 0 := by
      simp [rustTrunc, div_nonneg h0 hm.le, hfl]
    simp [rustRem, this]
  have hfl2 : ⌊(v + m) / m⌋ = 1 := by
    have hne : m ≠ 0 := hm.ne'
    have hdiv : (v + m) / m = v / m + 1 := by field_simp
    have hlt : v / m < 1 := by rw [div_lt_one hm]; exact h1
    have hge : 0 ≤ v / m := div_nonneg h0 hm.le
    rw [Int.floor_eq_iff]
    push_cast
    rw [hdiv]
    constructor <;> linarith
  have hr2 : rustRem (v + m) m = v := by
    have hge : 0 ≤ (v + m) / m := div_nonneg (by linarith) hm.le
    have htr : rustTrunc ((v + m) / m) = 1 := by simp [rustTrunc, hge, hfl2]
    rw [rustRem, htr]
    push_cast
    ring
  rw [wrap, hr1, hr2]

lemma wrap_idem (v m : ℝ) (hm : 0 < m) : wrap (wrap v m) m = wrap v m := by
  obtain ⟨h0, h1⟩ := wrap_bounds v m hm
  exact wrap_eq_self h0 h1

lemma toroidal_diff_antisymm (a b m : ℝ) (hm : 0 < m) :
    toroidal_diff a b m = -toroidal_diff b a m := by
  simp only [toroidal_diff]
  split_ifs <;> first | (exfalso; linarith) | ring

lemma toroidal_diff_range {a b m : ℝ} (ha0 : 0 ≤ a) (ha1 : a < m)
    (hb0 : 0 ≤ b) (hb1 : b < m) :
    -m / 2 ≤ toroidal_diff a b m ∧ toroidal_diff a b m ≤ m / 2 := by
  have hm : 0 < m := lt_of_le_of_lt ha0 ha1
  simp only [toroidal_diff]
  split_ifs <;> constructor <;> linarith

/-! ## Data model from `game.rs` -/

structure Ship where
  x : ℝ
  y : ℝ
  vx : ℝ
  vy : ℝ
  rotation : ℝ
  alive : Bool
  fire_cooldown : ℝ
  shots_fired : ℕ
  hits_scored : ℕ

structure Projectile where
  x : ℝ
  y : ℝ
  vx : ℝ
  vy : ℝ
  lifetime : ℝ
  owner : Fin 2

structure GameState where
  ships : Fin 2 → Ship
  projectiles : List Projectile
  time : ℝ
  match_over : Bool
  winner : Option (Fin 2)

/-- `Ship::new(x, y, rotation)` -/
def Ship.new (x y rotation : ℝ) : Ship :=
  { x := x, y := y, vx := 0, vy := 0, rotation := rotation, alive := true,
    fire_cooldown := 0, shots_fired := 0, hits_scored := 0 }

/-- The index of the opposing ship: `1 - i` on `usize` indices `0` and `1`. -/
def other (i : Fin 2) : Fin 2 := ⟨1 - i.val, by omega⟩

/-! ## `GameState::update`, split into its successive phases -/

/-- The speed cap (`game.rs` lines 129-137): if `|v|` exceeds
`MAX_SHIP_SPEED`, rescale `v` to the cap. -/
def capSpeed (vx vy : ℝ) : ℝ × ℝ :=
  let speed := Real.sqrt (vx * vx + vy * vy)
  if speed > MAX_SHIP_SPEED then
    (vx * (MAX_SHIP_SPEED / speed), vy * (MAX_SHIP_SPEED / speed))
  else (vx, vy)

/-- The firing step (`game.rs` lines 150-165), applied to the ship after its
kinematic update.  A projectile is spawned only when the fire signal is set,
the cooldown has expired, and the owner's live-projectile count is strictly
below `MAX_PROJECTILES_PER_SHIP`. -/
def tryFire (i : Fin 2) (fire c s : ℝ) (sh1 : Ship)
    (projectiles : List Projectile) : Ship × List Projectile :=
  if fire > 0.5 ∧ sh1.fire_cooldown ≤ 0 then
    if projectiles.countP (fun p => p.owner == i) < MAX_PROJECTILES_PER_SHIP then
      ({ sh1 with fire_cooldown := FIRE_COOLDOWN, shots_fired := sh1.shots_fired + 1 },
        projectiles ++ [{
          x := sh1.x + c * SHIP_RADIUS, y := sh1.y + s * SHIP_RADIUS,
          vx := c * PROJECTILE_SPEED + sh1.vx * 0.3,
          vy := s * PROJECTILE_SPEED + sh1.vy * 0.3,
          lifetime := PROJECTILE_LIFETIME, owner := i }])
    else (sh1, projectiles)
  else (sh1, projectiles)

/-- The per-ship block of `GameState::update` (`game.rs` lines 104-166):
rotation, thrust, drag, speed cap, position integration with wrapping,
cooldown bookkeeping, and firing (guarded by the per-ship projectile cap). -/
def updateShip (dt : ℝ) (a : Fin 4 → ℝ) (i : Fin 2) (sh : Ship)
    (projectiles : List Projectile) : Ship × List Projectile :=
  if !sh.alive then (sh, projectiles) else
  let thrust := rclamp (a 0) 0 1
  let turn_left := rclamp (a 1) 0 1
  let turn_right := rclamp (a 2) 0 1
  let fire := a 3
  let rot := sh.rotation + (turn_right - turn_left) * SHIP_ROTATION_SPEED * dt
  let c := Real.cos rot
  let s := Real.sin rot
  let vx1 := sh.vx + c * thrust * SHIP_THRUST * dt
  let vy1 := sh.vy + s * thrust * SHIP_THRUST * dt
  let drag := Real.rpow SHIP_DRAG (dt * 60)
  let v3 := capSpeed (vx1 * drag) (vy1 * drag)
  let x1 := wrap (sh.x + v3.1 * dt) ARENA_WIDTH
  let y1 := wrap (sh.y + v3.2 * dt) ARENA_HEIGHT
  let cd := max (sh.fire_cooldown - dt) 0
  let sh1 : Ship := { sh with
    x := x1, y := y1, vx := v3.1, vy := v3.2,
    rotation := rot, fire_cooldown := cd }
  tryFire i fire c s sh1 projectiles

/-- Ship-to-ship elastic bounce (`game.rs` lines 168-203). -/
def shipCollision (s0 s1 : Ship) : Ship × Ship :=
  if s0.alive ∧ s1.alive then
    let dx := toroidal_diff s0.x s1.x ARENA_WIDTH
    let dy := toroidal_diff s0.y s1.y ARENA_HEIGHT
    let dist_sq := dx * dx + dy * dy
    let min_dist := SHIP_RADIUS * 2
    if dist_sq < min_dist * min_dist ∧ dist_sq > 0.001 then
      let dist := Real.sqrt dist_sq
      let nx := dx / dist
      let ny := dy / dist
      let overlap := min_dist - dist
      let x0 := wrap (s0.x + nx * overlap * 0.5) ARENA_WIDTH
      let y0 := wrap (s0.y + ny * overlap * 0.5) ARENA_HEIGHT
      let x1 := wrap (s1.x - nx * overlap * 0.5) ARENA_WIDTH
      let y1 := wrap (s1.y - ny * overlap * 0.5) ARENA_HEIGHT
      let rel_vn := (s0.vx - s1.vx) * nx + (s0.vy - s1.vy) * ny
      if rel_vn < 0 then
        ({ s0 with x := x0, y := y0, vx := s0.vx - rel_vn * nx, vy := s0.vy - rel_vn * ny },
          { s1 with x := x1, y := y1, vx := s1.vx + rel_vn * nx, vy := s1.vy + rel_vn * ny })
      else
        ({ s0 with x := x0, y := y0 }, { s1 with x := x1, y := y1 })
    else (s0, s1)
  else (s0, s1)

/-- Projectile integration step (`game.rs` lines 206-212). -/
def moveProj (dt : ℝ) (p : Projectile) : Projectile :=
  { p with
    x := wrap (p.x + p.vx * dt) ARENA_WIDTH,
    y := wrap (p.y + p.vy * dt) ARENA_HEIGHT,
    lifetime := p.lifetime - dt }

/-- One step of the projectile-ship collision loop (`game.rs` lines 217-231).
The accumulator carries the ships and the queued dead-projectile indices. -/
def projHitStep (acc : (Fin 2 → Ship) × List ℕ) (e : ℕ × Projectile) :
    (Fin 2 → Ship) × List ℕ :=
  let ships := acc.1
  let p := e.2
  let target := other p.owner
  if !(ships target).alive then acc
  else
    let dx := toroidal_diff p.x (ships target).x ARENA_WIDTH
    let dy := toroidal_diff p.y (ships target).y ARENA_HEIGHT
    let dist_sq := dx * dx + dy * dy
    let hit_radius := SHIP_RADIUS + PROJECTILE_RADIUS
    if dist_sq < hit_radius * hit_radius then
      let ships1 := Function.update ships target { ships target with alive := false }
      let ships2 := Function.update ships1 p.owner
        { ships1 p.owner with hits_scored := (ships1 p.owner).hits_scored + 1 }
      (ships2, acc.2 ++ [e.1])
    else acc

def projCollisions (ships : Fin 2 → Ship) (ps : List Projectile) :
    (Fin 2 → Ship) × List ℕ :=
  ps.enum.foldl projHitStep (ships, [])

/-- `dead_projectiles.sort_unstable()` followed by removal in reverse order
(`game.rs` lines 233-236). -/
def removeIndices (ps : List Projectile) (dead : List ℕ) : List Projectile :=
  ((dead.mergeSort (fun a b => decide (a ≤ b))).reverse).foldl
    (fun acc k => acc.eraseIdx k) ps

/-- The `i = 0` iteration of the ship loop (`game.rs` line 104). -/
def shipPhase0 (s : GameState) (dt : ℝ) (actions : Fin 2 → Fin 4 → ℝ) :
    Ship × List Projectile :=
  updateShip dt (actions 0) 0 (s.ships 0) s.projectiles

/-- The `i = 1` iteration of the ship loop, seeing the projectile list the
`i = 0` iteration may have extended. -/
def shipPhase1 (s : GameState) (dt : ℝ) (actions : Fin 2 → Fin 4 → ℝ) :
    Ship × List Projectile :=
  updateShip dt (actions 1) 1 (s.ships 1) (shipPhase0 s dt actions).2

/-- The ship-to-ship collision phase, applied after both per-ship steps. -/
def collPhase (s : GameState) (dt : ℝ) (actions : Fin 2 → Fin 4 → ℝ) :
    Ship × Ship :=
  shipCollision (shipPhase0 s dt actions).1 (shipPhase1 s dt actions).1

/-- The two ships after the collision phase, restored to indexed form. -/
def shipsMid (s : GameState) (dt : ℝ) (actions : Fin 2 → Fin 4 → ℝ) :
    Fin 2 → Ship :=
  fun j => if j = 0 then (collPhase s dt actions).1 else (collPhase s dt actions).2

/-- Projectile integration and lifetime-expiry removal
(`game.rs` lines 206-213). -/
def projPhase (s : GameState) (dt : ℝ) (actions : Fin 2 → Fin 4 → ℝ) :
    List Projectile :=
  ((shipPhase1 s dt actions).2.map (moveProj dt)).filter (fun p => p.lifetime > 0)

/-- The projectile-ship collision loop (`game.rs` lines 215-231). -/
def hitPhase (s : GameState) (dt : ℝ) (actions : Fin 2 → Fin 4 → ℝ) :
    (Fin 2 → Ship) × List ℕ :=
  projCollisions (shipsMid s dt actions) (projPhase s dt actions)

/-- `GameState::update(dt, actions)` (`game.rs` lines 95-248), as the
composition of the phases above followed by the match-end check. -/
def GameState.update (s : GameState) (dt : ℝ) (actions : Fin 2 → Fin 4 → ℝ) :
    GameState :=
  if s.match_over then { s with time := s.time + dt } else
  let time1 := s.time + dt
  let ships2 := (hitPhase s dt actions).1
  let projs3 := removeIndices (projPhase s dt actions) (hitPhase s dt actions).2
  let alive_count := ([ships2 0, ships2 1].filter (fun sh => sh.alive)).length
  if alive_count ≤ 1 ∨ time1 ≥ MATCH_DURATION then
    { ships := ships2, projectiles := projs3, time := time1, match_over := true,
                       winner := if (ships2 0).alive ∧ ¬ (ships2 1).alive = true then some 0
                         else if (ships2 1).alive ∧ ¬ (ships2 0).alive = true then some 1
                         else s.winner }
  else
    { ships := ships2, projectiles := projs3, time := time1,
                       match_over := s.match_over, winner := s.winner }

/-- `GameState::new` -/
def GameState.new : GameState :=
  { ships := fun j => if j = 0 then Ship.new 200 300 0 else Ship.new 600 300 Real.pi,
                      projectiles := [], time := 0, match_over := false, winner := none }

/-! ## The random source

The `rand` crate is external to the repository; it is modelled by streams of
values obeying the documented contracts of the methods the sources call:
`gen_range(0..n)` yields a value `< n`, `gen::<f32>()` yields a value in
`[0, 1)`, and `gen_range(lo..hi)` yields a value in `[lo, hi)`. -/

structure UnitVal where
  val : ℝ
  nonneg : 0 ≤ val
  lt_one : val < 1

structure Rng where
  nats : ℕ → ℕ
  units : ℕ → UnitVal
  natPos : ℕ
  unitPos : ℕ

/-- `rng.gen_range(0..n)` -/
def Rng.genNat (r : Rng) (n : ℕ) : ℕ × Rng :=
  (r.nats r.natPos % n, { r with natPos := r.natPos + 1 })

/-- `rng.gen::<f32>()` -/
def Rng.genUnit (r : Rng) : ℝ × Rng :=
  ((r.units r.unitPos).val, { r with unitPos := r.unitPos + 1 })

/-- `rng.gen_range(lo..hi)` on floats -/
def Rng.genRange (r : Rng) (lo hi : ℝ) : ℝ × Rng :=
  let u := r.genUnit
  (lo + (hi - lo) * u.1, u.2)

/-- `GameState::new_random(rng)` -/
def GameState.new_random (rng : Rng) : GameState × Rng :=
  let y1p := rng.genRange 150 450
  let y2p := y1p.2.genRange 150 450
  let r1p := y2p.2.genRange (-0.5) 0.5
  let r2p := r1p.2.genRange (-0.5) 0.5
  ({ ships := fun j => if j = 0 then Ship.new 200 y1p.1 r1p.1
                       else Ship.new 600 y2p.1 (Real.pi + r2p.1),
                       projectiles := [], time := 0, match_over := false,
                       winner := none }, r2p.2)

/-- States reachable from a freshly constructed `GameState` by any sequence
of `update` calls. -/
inductive Reachable : GameState → Prop where
  | new_fixed : Reachable GameState.new
  | new_rand (rng : Rng) : Reachable (GameState.new_random rng).1
  | step (s : GameState) (dt : ℝ) (actions : Fin 2 → Fin 4 → ℝ) :
      Reachable s → Reachable (s.update dt actions)

/-! ## `genome.rs` -/

def INPUT_SIZE : ℕ := 14
def HIDDEN_SIZE : ℕ := 20
def OUTPUT_SIZE : ℕ := 4
def GENOME_SIZE : ℕ := (INPUT_SIZE + 1) * HIDDEN_SIZE + (HIDDEN_SIZE + 1) * OUTPUT_SIZE

structure Genome where
  weights : List ℝ
  fitness : ℝ

instance : Inhabited Genome := ⟨⟨[], 0⟩⟩

def sigmoid (x : ℝ) : ℝ := 1 / (1 + Real.exp (-x))

/-- `Genome::random(rng)` -/
def Genome.random (rng : Rng) : Genome × Rng :=
  let r := (List.range GENOME_SIZE).foldl (fun (acc : List ℝ × Rng) _ =>
    let d := acc.2.genRange (-1) 1
    (acc.1 ++ [d.1], d.2)) ([], rng)
  ({ weights := r.1, fitness := 0 }, r.2)

/-- `Genome::evaluate(inputs)`: one forward pass.  The Rust loop walks a
running index `idx` through the flat weight vector; hidden neuron `h` reads
inputs at `idx = h*(INPUT_SIZE+1) + k` with bias at `h*(INPUT_SIZE+1) +
INPUT_SIZE`, and output neuron `o` reads hidden values at
`(INPUT_SIZE+1)*HIDDEN_SIZE + o*(HIDDEN_SIZE+1) + h` with bias following. -/
def Genome.evaluate (g : Genome) (inputs : List ℝ) : Fin OUTPUT_SIZE → ℝ :=
  let hidden : ℕ → ℝ := fun h =>
    Real.tanh (
      (Finset.range INPUT_SIZE).sum
        (fun k => inputs.getD k 0 * g.weights.getD (h * (INPUT_SIZE + 1) + k) 0) +
      g.weights.getD (h * (INPUT_SIZE + 1) + INPUT_SIZE) 0)
  fun o => sigmoid (
    (Finset.range HIDDEN_SIZE).sum
      (fun h => hidden h *
        g.weights.getD ((INPUT_SIZE + 1) * HIDDEN_SIZE + o.val * (HIDDEN_SIZE + 1) + h) 0) +
    g.weights.getD ((INPUT_SIZE + 1) * HIDDEN_SIZE + o.val * (HIDDEN_SIZE + 1) + HIDDEN_SIZE) 0)

/-- `f32::MAX`, the sentinel in `nearest_enemy_bullet`. -/
def F32_MAX : ℝ := 2 ^ 128 - 2 ^ 104

/-- `f32::atan2(y, x)`. -/
def atan2 (y x : ℝ) : ℝ :=
  if x > 0 then Real.arctan (y / x)
  else if x < 0 ∧ 0 ≤ y then Real.arctan (y / x) + Real.pi
  else if x < 0 then Real.arctan (y / x) - Real.pi
  else if y > 0 then Real.pi / 2
  else if y < 0 then -(Real.pi / 2)
  else 0

/-- `nearest_enemy_bullet(state, ship_idx)` -/
def nearest_enemy_bullet (state : GameState) (ship_idx : Fin 2) : ℝ × ℝ :=
  let ship := state.ships ship_idx
  let r := state.projectiles.foldl (fun (acc : ℝ × ℝ) p =>
    if p.owner == ship_idx then acc
    else
      let dx := toroidal_diff p.x ship.x ARENA_WIDTH
      let dy := toroidal_diff p.y ship.y ARENA_HEIGHT
      let dist := Real.sqrt (dx * dx + dy * dy)
      if dist < acc.1 then (dist, atan2 dy dx - ship.rotation) else acc)
    (F32_MAX, 0)
  if r.1 = F32_MAX then (1, 0) else (min (r.1 / 500) 1, r.2)

/-- `Genome::get_inputs(state, ship_idx)`: the 14-component sensor vector. -/
def Genome.get_inputs (state : GameState) (ship_idx : Fin 2) : List ℝ :=
  let ship := state.ships ship_idx
  let opp := state.ships (other ship_idx)
  let dx := toroidal_diff opp.x ship.x ARENA_WIDTH
  let dy := toroidal_diff opp.y ship.y ARENA_HEIGHT
  let dist := max (Real.sqrt (dx * dx + dy * dy)) 1
  let angle_to_opp := atan2 dy dx - ship.rotation
  let angle_opp_to_us := atan2 (-dy) (-dx)
  let opp_facing_angle := opp.rotation - angle_opp_to_us
  let own_speed := Real.sqrt (ship.vx * ship.vx + ship.vy * ship.vy)
  let own_vel_angle := if own_speed > 1 then atan2 ship.vy ship.vx - ship.rotation else 0
  let opp_speed := Real.sqrt (opp.vx * opp.vx + opp.vy * opp.vy)
  let bullet := nearest_enemy_bullet state ship_idx
  let cooldown_norm := min (ship.fire_cooldown / FIRE_COOLDOWN) 1
  let own_projectiles := state.projectiles.countP (fun p => p.owner == ship_idx)
  [min (dist / 500) 1,
    Real.sin angle_to_opp, Real.cos angle_to_opp,
    Real.sin opp_facing_angle, Real.cos opp_facing_angle,
    min (own_speed / 300) 1, min (opp_speed / 300) 1,
    bullet.1, Real.sin bullet.2, Real.cos bullet.2,
    Real.sin own_vel_angle, Real.cos own_vel_angle,
    cooldown_norm,
    (own_projectiles : ℝ) / (MAX_PROJECTILES_PER_SHIP : ℝ)]

/-- `Genome::crossover(a, b, rng)`: single-point splice. -/
def Genome.crossover (a b : Genome) (rng : Rng) : Genome × Rng :=
  let d := rng.genNat GENOME_SIZE
  ({ weights := (List.range GENOME_SIZE).map (fun k =>
      if k < d.1 then a.weights.getD k 0 else b.weights.getD k 0),
     fitness := 0 }, d.2)

/-- One iteration of the `Genome::mutate` loop: with probability `rate` add
a perturbation drawn from `[-strength, strength)` and clamp to `[-3, 3]`. -/
def mutateStep (rate strength : ℝ) (acc : List ℝ × Rng) (w : ℝ) : List ℝ × Rng :=
  let u := acc.2.genUnit
  if u.1 < rate then
    let d := u.2.genRange (-strength) strength
    (acc.1 ++ [rclamp (w + d.1) (-3) 3], d.2)
  else (acc.1 ++ [w], u.2)

/-- `Genome::mutate(rate, strength, rng)` -/
def Genome.mutate (g : Genome) (rate strength : ℝ) (rng : Rng) : Genome × Rng :=
  let r := g.weights.foldl (mutateStep rate strength) ([], rng)
  ({ g with weights := r.1 }, r.2)

/-! ## `simulation.rs` -/

def SIM_DT : ℝ := 1 / 60

/-- `(MATCH_DURATION / SIM_DT) as usize`; in exact arithmetic `30 / (1/60)
= 1800`. -/
def SIM_STEPS : ℕ := 1800

structure MatchResult where
  fitness : ℝ × ℝ

/-- The tick loop of `run_match`: steps the state, accumulating the shared
proximity reward and the step count, stopping early once the match is over. -/
def runSteps (g1 g2 : Genome) : ℕ → GameState → ℝ × ℝ → ℕ → GameState × (ℝ × ℝ) × ℕ
  | 0, st, prox, cnt => (st, prox, cnt)
  | n + 1, st, prox, cnt =>
    if st.match_over then (st, prox, cnt)
    else
      let actions0 := Genome.evaluate g1 (Genome.get_inputs st 0)
      let actions1 := Genome.evaluate g2 (Genome.get_inputs st 1)
      let st1 := st.update SIM_DT (fun i => if i = 0 then actions0 else actions1)
      let dx := toroidal_diff (st1.ships 0).x (st1.ships 1).x ARENA_WIDTH
      let dy := toroidal_diff (st1.ships 0).y (st1.ships 1).y ARENA_HEIGHT
      let dist := Real.sqrt (dx * dx + dy * dy)
      let p := 1 - min (dist / 500) 1
      runSteps g1 g2 n st1 (prox.1 + p, prox.2 + p) (cnt + 1)

/-- The per-ship fitness formula at the end of `run_match`. -/
def shipFitness (st : GameState) (i : Fin 2) (avgProx : ℝ) : ℝ :=
  let ship := st.ships i
  let opp := st.ships (other i)
  (if ship.alive ∧ ¬ opp.alive = true then 100 else 0) +
    (if ¬ ship.alive = true then -20 else 0) +
    (ship.hits_scored : ℝ) * 50 +
    (if ship.shots_fired > 0 then
      ((ship.hits_scored : ℝ) / (ship.shots_fired : ℝ)) * 30 else 0) +
    min (ship.shots_fired : ℝ) 20 * 0.5 +
    avgProx * 20 +
    (if ship.alive then min (st.time / MATCH_DURATION) 1 * 15
     else min (st.time / MATCH_DURATION) 1 * 5)

/-- `run_match(g1, g2, rng)` -/
def run_match (g1 g2 : Genome) (rng : Rng) : MatchResult × Rng :=
  let start := GameState.new_random rng
  let r := runSteps g1 g2 SIM_STEPS start.1 (0, 0) 0
  let avg : ℝ × ℝ := if r.2.2 > 0 then
      (r.2.1.1 / (r.2.2 : ℝ), r.2.1.2 / (r.2.2 : ℝ)) else (0, 0)
  (⟨(shipFitness r.1 0 avg.1, shipFitness r.1 1 avg.2)⟩, start.2)

/-! ## `evolution.rs` -/

def POPULATION_SIZE : ℕ := 100
def MATCHES_PER_EVAL : ℕ := 8
def TOURNAMENT_SIZE : ℕ := 5
def ELITE_COUNT : ℕ := 5
def MUTATION_RATE : ℝ := 0.15
def MUTATION_STRENGTH : ℝ := 0.4
def CROSSOVER_RATE : ℝ := 0.7

structure Population where
  genomes : List Genome
  generation : ℕ
  best_fitness : ℝ

/-- `Population::new(rng)` -/
def Population.new (rng : Rng) : Population × Rng :=
  let r := (List.range POPULATION_SIZE).foldl (fun (acc : List Genome × Rng) _ =>
    let g := Genome.random acc.2
    (acc.1 ++ [g.1], g.2)) ([], rng)
  ({ genomes := r.1, generation := 0, best_fitness := 0 }, r.2)

/-- The opponent-index adjustment in `Population::evaluate`: a draw
`j ∈ [0, POPULATION_SIZE-1)` is shifted past the self index
(`if j >= i { j += 1 }`). -/
def opponentIndex (i j : ℕ) : ℕ := if j ≥ i then j + 1 else j

/-- One match of the evaluation loop for genome `i`: draw the opponent,
run the match, and fold both fitness deltas into the list. -/
def evalOneMatch (gs : List Genome) (i : ℕ) (rng : Rng) : List Genome × Rng :=
  let d := rng.genNat (POPULATION_SIZE - 1)
  let j := opponentIndex i d.1
  let r := run_match (gs.getD i default) (gs.getD j default) d.2
  let gs1 := gs.set i
    { gs.getD i default with fitness := (gs.getD i default).fitness + r.1.fitness.1 }
  let gs2 := gs1.set j
    { gs1.getD j default with fitness := (gs1.getD j default).fitness + r.1.fitness.2 }
  (gs2, r.2)

/-- `Population::evaluate(rng)`: reset every fitness to 0, then play
`MATCHES_PER_EVAL` matches per genome against drawn opponents, and record
the best fitness. -/
def Population.evaluate (p : Population) (rng : Rng) : Population × Rng :=
  let gs0 := p.genomes.map (fun g => { g with fitness := 0 })
  let r := (List.range POPULATION_SIZE).foldl
    (fun (acc : List Genome × Rng) i =>
      (List.range MATCHES_PER_EVAL).foldl
        (fun (acc2 : List Genome × Rng) _ => evalOneMatch acc2.1 i acc2.2) acc)
    (gs0, rng)
  ({ genomes := r.1, generation := p.generation,
     best_fitness := r.1.foldl (fun m g => max m g.fitness) 0 }, r.2)

/-- `self.genomes.sort_by(|a, b| b.fitness.partial_cmp(&a.fitness).unwrap())`:
a stable sort, descending by fitness. -/
def sortDescByFitness (gs : List Genome) : List Genome :=
  gs.mergeSort (fun a b => decide (b.fitness ≤ a.fitness))

/-- `tournament_select(genomes, rng)` -/
def tournament_select (genomes : List Genome) (rng : Rng) : Genome × Rng :=
  let d0 := rng.genNat genomes.length
  (List.range (TOURNAMENT_SIZE - 1)).foldl (fun (acc : Genome × Rng) _ =>
    let d := acc.2.genNat genomes.length
    let candidate := genomes.getD d.1 default
    (if candidate.fitness > acc.1.fitness then candidate else acc.1, d.2))
    (genomes.getD d0.1 default, d0.2)

/-- One iteration of the offspring loop in `Population::evolve`. -/
def makeChild (sorted : List Genome) (rng : Rng) : Genome × Rng :=
  let p1 := tournament_select sorted rng
  let p2 := tournament_select sorted p1.2
  let u := p2.2.genUnit
  let c0 := if u.1 < CROSSOVER_RATE then Genome.crossover p1.1 p2.1 u.2
    else (p1.1, u.2)
  let c1 : Genome := { c0.1 with fitness := 0 }
  c1.mutate MUTATION_RATE MUTATION_STRENGTH c0.2

/-- The `while new_genomes.len() < POPULATION_SIZE` loop: each iteration
appends exactly one child, so it runs `POPULATION_SIZE - ELITE_COUNT`
times. -/
def fillChildren (sorted : List Genome) : ℕ → List Genome → Rng → List Genome × Rng
  | 0, acc, rng => (acc, rng)
  | n + 1, acc, rng =>
    let c := makeChild sorted rng
    fillChildren sorted n (acc ++ [c.1]) c.2

/-- `Population::evolve(rng)` -/
def Population.evolve (p : Population) (rng : Rng) : Population × Rng :=
  let sorted := sortDescByFitness p.genomes
  let elites := (sorted.take ELITE_COUNT).map (fun g => { g with fitness := 0 })
  let r := fillChildren sorted (POPULATION_SIZE - elites.length) elites rng
  ({ genomes := r.1, generation := p.generation + 1,
     best_fitness := p.best_fitness }, r.2)

/-- `Population::get_top_two()` -/
def Population.get_top_two (p : Population) : Genome × Genome :=
  let sorted := sortDescByFitness p.genomes
  (sorted.getD 0 default, sorted.getD 1 default)

/-! ## Lemmas about `Genome::mutate` (C7) -/

lemma mutateStep_zero (s : ℝ) (l : List ℝ) (r : Rng) (w : ℝ) :
    mutateStep 0 s (l, r) w = (l ++ [w], r.genUnit.2) := by
  rw [mutateStep]
  split_ifs with hu
  · exact absurd hu (not_lt.mpr (r.units r.unitPos).nonneg)
  · rfl

lemma mutateStep_one (s : ℝ) (l : List ℝ) (r : Rng) (w : ℝ) :
    mutateStep 1 s (l, r) w =
      (l ++ [rclamp (w + (r.genUnit.2.genRange (-s) s).1) (-3) 3],
        (r.genUnit.2.genRange (-s) s).2) := by
  rw [mutateStep]
  split_ifs with hu
  · rfl
  · exact absurd (r.units r.unitPos).lt_one hu

lemma genRange_mem (r : Rng) (lo hi : ℝ) (h : lo ≤ hi) :
    lo ≤ (r.genRange lo hi).1 ∧ (r.genRange lo hi).1 ≤ hi := by
  have unonneg := (r.units r.unitPos).nonneg
  have ultone := (r.units r.unitPos).lt_one
  simp only [Rng.genRange, Rng.genUnit]
  constructor
  · nlinarith
  · nlinarith

lemma mutate_zero_foldl (s : ℝ) (ws : List ℝ) (l : List ℝ) (r : Rng) :
    (ws.foldl (mutateStep 0 s) (l, r)).1 = l ++ ws := by
  induction ws generalizing l r with
  | nil => simp
  | cons w t ih =>
    rw [List.foldl_cons, mutateStep_zero, ih]
    simp

lemma mutate_one_foldl (s : ℝ) (hs : 0 < s) (ws : List ℝ) (l : List ℝ) (r : Rng) :
    (ws.foldl (mutateStep 1 s) (l, r)).1.length = l.length + ws.length ∧
      (∀ k, k < l.length →
        (ws.foldl (mutateStep 1 s) (l, r)).1.getD k 0 = l.getD k 0) ∧
      (∀ k, k < ws.length → ∃ δ : ℝ, -s ≤ δ ∧ δ ≤ s ∧
        (ws.foldl (mutateStep 1 s) (l, r)).1.getD (l.length + k) 0 =
          rclamp (ws.getD k 0 + δ) (-3) 3) := by
  induction ws generalizing l r with
  | nil =>
    refine ⟨by simp, fun k hk => rfl, fun k hk => absurd hk (by simp)⟩
  | cons w t ih =>
    rw [List.foldl_cons, mutateStep_one]
    have hδ := genRange_mem (r.genUnit.2) (-s) s (by linarith)
    set x := rclamp (w + (r.genUnit.2.genRange (-s) s).1) (-3) 3 with hx
    obtain ⟨ihlen, ihpre, ihpos⟩ := ih (l ++ [x]) (r.genUnit.2.genRange (-s) s).2
    refine ⟨?_, ?_, ?_⟩
    · rw [ihlen]
      simp
      omega
    · intro k hk
      rw [ihpre k (by simp; omega), List.getD_append _ _ _ _ (by omega)]
    · intro k hk
      match k with
      | 0 =>
        refine ⟨(r.genUnit.2.genRange (-s) s).1, hδ.1, hδ.2, ?_⟩
        have hlen : l.length + 0 < (l ++ [x]).length := by simp
        rw [ihpre (l.length + 0) hlen]
        have : (l ++ [x]).getD (l.length + 0) 0 = x := by
          simp [List.getD_append_right]
        rw [this, hx]
        rfl
      | k' + 1 =>
        obtain ⟨δ, hδ1, hδ2, heq⟩ := ihpos k' (by simpa using hk)
        refine ⟨δ, hδ1, hδ2, ?_⟩
        have hidx : (l ++ [x]).length + k' = l.length + (k' + 1) := by
          simp
          omega
        rw [hidx] at heq
        rw [heq]
        rfl

lemma rclamp_mem (x lo hi : ℝ) (h : lo ≤ hi) :
    lo ≤ rclamp x lo hi ∧ rclamp x lo hi ≤ hi := by
  rw [rclamp]
  split_ifs with h1 h2
  · exact ⟨le_refl lo, h⟩
  · exact ⟨h, le_refl hi⟩
  · exact ⟨by linarith [not_lt.mp h1], by linarith [not_lt.mp h2]⟩

/-! ## Lemmas about `Population::evolve` (C6) -/

lemma fillChildren_length (sorted : List Genome) (n : ℕ) (acc : List Genome)
    (rng : Rng) : (fillChildren sorted n acc rng).1.length = acc.length + n := by
  induction n generalizing acc rng with
  | zero => rfl
  | succ m ih =>
    rw [fillChildren, ih]
    simp
    omega

lemma fillChildren_prefix (sorted : List Genome) (n : ℕ) (acc : List Genome)
    (rng : Rng) : ∃ ext, (fillChildren sorted n acc rng).1 = acc ++ ext := by
  induction n generalizing acc rng with
  | zero => exact ⟨[], by simp [fillChildren]⟩
  | succ m ih =>
    rw [fillChildren]
    obtain ⟨ext, hext⟩ :=
      ih (acc ++ [(makeChild sorted rng).1]) (makeChild sorted rng).2
    refine ⟨(makeChild sorted rng).1 :: ext, ?_⟩
    rw [hext]
    simp

lemma sortDescByFitness_perm (gs : List Genome) :
    (sortDescByFitness gs).Perm gs :=
  List.mergeSort_perm gs _

/-- A concrete random source: every stream value is zero. -/
def demoRng : Rng :=
  ⟨fun _ => 0, fun _ => ⟨0, le_refl 0, by norm_num⟩, 0, 0⟩

/-- A concrete population of `POPULATION_SIZE` trivial genomes. -/
def demoPop : Population :=
  ⟨List.replicate POPULATION_SIZE ⟨[], 0⟩, 0, 0⟩

lemma sortDescByFitness_sorted (gs : List Genome) :
    (sortDescByFitness gs).Pairwise (fun a b => b.fitness ≤ a.fitness) := by
  have h := @List.sorted_mergeSort Genome
    (fun a b => decide (b.fitness ≤ a.fitness))
    (by
      intro a b c hab hbc
      simp only [decide_eq_true_eq] at *
      exact le_trans hbc hab)
    (by
      intro a b
      simp only [Bool.or_eq_true, decide_eq_true_eq]
      exact le_total b.fitness a.fitness)
    gs
  exact h.imp (fun hab => by simpa using hab)

/-! ## Concrete evaluation helpers -/

lemma capSpeed_of_le {vx vy : ℝ} (h : Real.sqrt (vx * vx + vy * vy) ≤ MAX_SHIP_SPEED) :
    capSpeed vx vy = (vx, vy) := by
  rw [capSpeed, if_neg (not_lt.mpr h)]

lemma updateShip_dead (dt : ℝ) (a : Fin 4 → ℝ) (i : Fin 2) (sh : Ship)
    (projs : List Projectile) (hal : sh.alive = false) :
    updateShip dt a i sh projs = (sh, projs) := by
  rw [updateShip, if_pos (by simp [hal])]

lemma shipCollision_dead0 (s0 s1 : Ship) (h : s0.alive = false) :
    shipCollision s0 s1 = (s0, s1) := by
  rw [shipCollision, if_neg (by simp [h])]

/-- With an all-zero action vector an alive ship neither turns, thrusts nor
fires: only drag, the cap, integration, wrapping and the cooldown apply. -/
lemma updateShip_zero_actions (dt : ℝ) (i : Fin 2) (sh : Ship)
    (projs : List Projectile) (hal : sh.alive = true) :
    updateShip dt (fun _ => 0) i sh projs =
      ({ sh with
          x := wrap (sh.x + (capSpeed (sh.vx * Real.rpow SHIP_DRAG (dt * 60))
                  (sh.vy * Real.rpow SHIP_DRAG (dt * 60))).1 * dt) ARENA_WIDTH,
          y := wrap (sh.y + (capSpeed (sh.vx * Real.rpow SHIP_DRAG (dt * 60))
                  (sh.vy * Real.rpow SHIP_DRAG (dt * 60))).2 * dt) ARENA_HEIGHT,
          vx := (capSpeed (sh.vx * Real.rpow SHIP_DRAG (dt * 60))
                  (sh.vy * Real.rpow SHIP_DRAG (dt * 60))).1,
          vy := (capSpeed (sh.vx * Real.rpow SHIP_DRAG (dt * 60))
                  (sh.vy * Real.rpow SHIP_DRAG (dt * 60))).2,
          fire_cooldown := max (sh.fire_cooldown - dt) 0 }, projs) := by
  rw [updateShip, if_neg (by simp [hal])]
  simp only [rclamp]
  rw [tryFire, if_neg (by norm_num)]
  norm_num

/-- A finished state carrying an alive ship far above the speed cap; the
frozen-state branch of `update` passes it through untouched. -/
def frozenFast : GameState :=
  { ships := fun _ => ⟨0, 0, 1000, 0, 0, true, 0, 0, 0⟩, projectiles := [],
    time := 0, match_over := true, winner := none }

/-- A concrete finished state, used to exercise the frozen-state branch. -/
def overDemo : GameState :=
  { ships := fun _ => Ship.new 0 0 0, projectiles := [], time := 4,
    match_over := true, winner := some 0 }

/-- The all-zero action matrix (no thrust, no turn, no fire). -/
def zeroActs : Fin 2 → Fin 4 → ℝ := fun _ _ => 0

/-- A running state in which ship 1 is about to ram the side of ship 0,
both at full drag-adjusted speed: ship 0 moves straight up (tangentially),
ship 1 moves straight right (along the collision normal). -/
def bounceDemo : GameState :=
  { ships := fun j => if j = 0 then ⟨110, 300, 0, 300, 0, true, 0, 0, 0⟩
      else ⟨95.1, 304.9, 300, 0, 0, true, 0, 0, 0⟩,
    projectiles := [], time := 0, match_over := false, winner := none }

/-- A running state in which ship 0 is already dead but one of its
projectiles sits right on top of the still-alive ship 1. -/
def deadOwnerDemo : GameState :=
  { ships := fun j => if j = 0 then ⟨200, 300, 0, 0, 0, false, 0, 0, 0⟩
      else ⟨400, 300, 0, 0, 0, true, 0, 0, 0⟩,
    projectiles := [⟨400, 300, 0, 0, 1, 0⟩], time := 0, match_over := false,
    winner := none }

lemma sqrt_294 : Real.sqrt ((0:ℝ) * 0 + 294 * 294) = 294 := by
  rw [show ((0:ℝ) * 0 + 294 * 294) = 294 ^ 2 by norm_num,
    Real.sqrt_sq (by norm_num : (0:ℝ) ≤ 294)]

lemma sqrt_294' : Real.sqrt ((294:ℝ) * 294 + 0 * 0) = 294 := by
  rw [show ((294:ℝ) * 294 + 0 * 0) = 294 ^ 2 by norm_num,
    Real.sqrt_sq (by norm_num : (0:ℝ) ≤ 294)]

lemma bounce0_step : shipPhase0 bounceDemo (1/60) zeroActs =
    (⟨110, 304.9, 0, 294, 0, true, 0, 0, 0⟩, []) := by
  have h0 : bounceDemo.ships 0 = ⟨110, 300, 0, 300, 0, true, 0, 0, 0⟩ := rfl
  have hp : bounceDemo.projectiles = [] := rfl
  have hacts : zeroActs 0 = (fun _ => 0) := rfl
  rw [shipPhase0, hacts, h0, hp, updateShip_zero_actions _ _ _ _ rfl]
  have hdrag : Real.rpow SHIP_DRAG ((1/60 : ℝ) * 60) = 0.98 := by
    norm_num [SHIP_DRAG]
  rw [hdrag]
  norm_num
  rw [capSpeed_of_le (by rw [sqrt_294]; norm_num [MAX_SHIP_SPEED])]
  norm_num [wrap, rustRem, rustTrunc, ARENA_WIDTH, ARENA_HEIGHT]

lemma bounce1_step : shipPhase1 bounceDemo (1/60) zeroActs =
    (⟨100, 304.9, 294, 0, 0, true, 0, 0, 0⟩, []) := by
  have h1 : bounceDemo.ships 1 = ⟨95.1, 304.9, 300, 0, 0, true, 0, 0, 0⟩ := rfl
  have hacts : zeroActs 1 = (fun _ => 0) := rfl
  rw [shipPhase1, bounce0_step, hacts, h1, updateShip_zero_actions _ _ _ _ rfl]
  have hdrag : Real.rpow SHIP_DRAG ((1/60 : ℝ) * 60) = 0.98 := by
    norm_num [SHIP_DRAG]
  rw [hdrag]
  norm_num
  rw [capSpeed_of_le (by rw [sqrt_294']; norm_num [MAX_SHIP_SPEED])]
  norm_num [wrap, rustRem, rustTrunc, ARENA_WIDTH, ARENA_HEIGHT]

lemma sqrt_100 : Real.sqrt ((10:ℝ) * 10 + 0 * 0) = 10 := by
  rw [show ((10:ℝ) * 10 + 0 * 0) = 10 ^ 2 by norm_num,
    Real.sqrt_sq (by norm_num : (0:ℝ) ≤ 10)]

lemma bounceColl :
    shipCollision (⟨110, 304.9, 0, 294, 0, true, 0, 0, 0⟩ : Ship)
        (⟨100, 304.9, 294, 0, 0, true, 0, 0, 0⟩ : Ship) =
      (⟨117, 304.9, 294, 294, 0, true, 0, 0, 0⟩, ⟨93, 304.9, 0, 0, 0, true, 0, 0, 0⟩) := by
  have hdx : toroidal_diff (110:ℝ) 100 ARENA_WIDTH = 10 := by
    norm_num [toroidal_diff, ARENA_WIDTH]
  have hdy : toroidal_diff (304.9:ℝ) 304.9 ARENA_HEIGHT = 0 := by
    norm_num [toroidal_diff, ARENA_HEIGHT]
  simp only [shipCollision]
  rw [hdx, hdy, sqrt_100]
  norm_num [SHIP_RADIUS, wrap, rustRem, rustTrunc, ARENA_WIDTH, ARENA_HEIGHT]

/-- The winner-field invariant of C2: `winner` is set only when the match is
over and the named ship is the exactly-one alive ship. -/
def WinnerInv (s : GameState) : Prop :=
  s.winner = none ∨
    (s.match_over = true ∧
      ((s.winner = some 0 ∧ (s.ships 0).alive = true ∧ (s.ships 1).alive = false) ∨
        (s.winner = some 1 ∧ (s.ships 1).alive = true ∧ (s.ships 0).alive = false)))

lemma winnerInv_update (s : GameState) (dt : ℝ) (actions : Fin 2 → Fin 4 → ℝ)
    (h : WinnerInv s) : WinnerInv (s.update dt actions) := by
  by_cases hov : s.match_over = true
  · rw [GameState.update, if_pos hov]
    rcases h with h | ⟨hmo, h⟩
    · exact Or.inl h
    · exact Or.inr ⟨hmo, h⟩
  · have hov' : s.match_over = false := by simpa using hov
    have hwn : s.winner = none := by
      rcases h with h | ⟨hmo, _⟩
      · exact h
      · rw [hov'] at hmo; exact absurd hmo (by simp)
    rw [GameState.update, if_neg hov]
    simp only [WinnerInv]
    split_ifs with hend h0 h1
    · exact Or.inr ⟨rfl, Or.inl ⟨rfl, by simpa using h0.1, by simpa using h0.2⟩⟩
    · exact Or.inr ⟨rfl, Or.inr ⟨rfl, by simpa using h1.1, by simpa using h1.2⟩⟩
    · exact Or.inl hwn
    · exact Or.inl hwn

lemma winnerInv_reachable (s : GameState) (h : Reachable s) : WinnerInv s := by
  induction h with
  | new_fixed => exact Or.inl rfl
  | new_rand rng => exact Or.inl rfl
  | step s dt actions _ ih => exact winnerInv_update s dt actions ih

/-! ## The per-owner projectile cap (C4) -/

lemma countP_tryFire_le (i : Fin 2) (fire c s : ℝ) (sh1 : Ship)
    (projs : List Projectile) (o : Fin 2)
    (h : projs.countP (fun p => p.owner == o) ≤ MAX_PROJECTILES_PER_SHIP) :
    ((tryFire i fire c s sh1 projs).2).countP (fun p => p.owner == o)
      ≤ MAX_PROJECTILES_PER_SHIP := by
  rw [tryFire]
  split_ifs with h1 h2
  · by_cases ho : o = i
    · subst ho
      simp only [List.countP_append, List.countP_cons, List.countP_nil,
        beq_self_eq_true]
      simp only [if_pos]
      omega
    · have hb : ((i == o) : Bool) = false := by
        simp only [beq_eq_false_iff_ne, ne_eq]
        exact fun hc => ho hc.symm
      simp only [List.countP_append, List.countP_cons, List.countP_nil, hb]
      simpa using h
  · exact h
  · exact h

lemma countP_updateShip_le (dt : ℝ) (a : Fin 4 → ℝ) (i : Fin 2) (sh : Ship)
    (projs : List Projectile) (o : Fin 2)
    (h : projs.countP (fun p => p.owner == o) ≤ MAX_PROJECTILES_PER_SHIP) :
    ((updateShip dt a i sh projs).2).countP (fun p => p.owner == o)
      ≤ MAX_PROJECTILES_PER_SHIP := by
  cases hal : sh.alive with
  | false =>
    simp only [updateShip, hal, Bool.not_false, if_true]
    exact h
  | true =>
    simp only [updateShip, hal, Bool.not_true, Bool.false_eq_true, if_false]
    exact countP_tryFire_le _ _ _ _ _ _ _ h

lemma countP_foldl_eraseIdx_le (l : List ℕ) (ps : List Projectile)
    (q : Projectile → Bool) :
    (l.foldl (fun acc k => acc.eraseIdx k) ps).countP q ≤ ps.countP q := by
  induction l generalizing ps with
  | nil => simp
  | cons k t ih =>
    calc (List.foldl (fun acc k => acc.eraseIdx k) (ps.eraseIdx k) t).countP q
        ≤ (ps.eraseIdx k).countP q := ih (ps.eraseIdx k)
      _ ≤ ps.countP q := (List.eraseIdx_sublist ps k).countP_le q

lemma countP_removeIndices_le (ps : List Projectile) (dead : List ℕ)
    (q : Projectile → Bool) :
    (removeIndices ps dead).countP q ≤ ps.countP q :=
  countP_foldl_eraseIdx_le _ ps q

lemma projCap_update (s : GameState) (dt : ℝ) (actions : Fin 2 → Fin 4 → ℝ)
    (o : Fin 2)
    (h : s.projectiles.countP (fun p => p.owner == o) ≤ MAX_PROJECTILES_PER_SHIP) :
    ((s.update dt actions).projectiles).countP (fun p => p.owner == o)
      ≤ MAX_PROJECTILES_PER_SHIP := by
  by_cases hov : s.match_over = true
  · rw [GameState.update, if_pos hov]
    exact h
  · rw [GameState.update, if_neg hov]
    simp only []
    split_ifs with hend
    all_goals {
      simp only []
      refine le_trans (countP_removeIndices_le _ _ _) ?_
      rw [projPhase]
      refine le_trans ((List.filter_sublist _).countP_le _) ?_
      rw [List.countP_map]
      have hmap : ((fun p => p.owner == o) ∘ moveProj dt) = (fun p => p.owner == o) := rfl
      rw [hmap, shipPhase1]
      refine countP_updateShip_le dt (actions 1) 1 _ _ o ?_
      rw [shipPhase0]
      exact countP_updateShip_le dt (actions 0) 0 _ _ o h
    }

lemma projCap_reachable (s : GameState) (o : Fin 2) (h : Reachable s) :
    s.projectiles.countP (fun p => p.owner == o) ≤ MAX_PROJECTILES_PER_SHIP := by
  induction h with
  | new_fixed => simp [GameState.new, MAX_PROJECTILES_PER_SHIP]
  | new_rand rng => simp [GameState.new_random, MAX_PROJECTILES_PER_SHIP, Rng.genRange, Rng.genUnit]
  | step s dt actions _ ih => exact projCap_update s dt actions o ih

/-! ## Speed bounds (C1) -/

lemma capSpeed_sq_le (vx vy : ℝ) :
    (capSpeed vx vy).1 ^ 2 + (capSpeed vx vy).2 ^ 2 ≤ MAX_SHIP_SPEED ^ 2 := by
  have hs : (0:ℝ) ≤ vx * vx + vy * vy :=
    add_nonneg (mul_self_nonneg vx) (mul_self_nonneg vy)
  simp only [capSpeed]
  split_ifs with h
  · have hM : (0:ℝ) < MAX_SHIP_SPEED := by norm_num [MAX_SHIP_SPEED]
    have hsp : 0 < Real.sqrt (vx * vx + vy * vy) := lt_trans hM h
    have hpos : 0 < vx * vx + vy * vy := Real.sqrt_pos.mp hsp
    have hsq : Real.sqrt (vx * vx + vy * vy) ^ 2 = vx * vx + vy * vy :=
      Real.sq_sqrt hs
    have hkey : (vx * (MAX_SHIP_SPEED / Real.sqrt (vx * vx + vy * vy))) ^ 2 +
        (vy * (MAX_SHIP_SPEED / Real.sqrt (vx * vx + vy * vy))) ^ 2
          = MAX_SHIP_SPEED ^ 2 := by
      rw [mul_pow, mul_pow, div_pow, hsq]
      field_simp
      ring
    exact le_of_eq hkey
  · have hle : Real.sqrt (vx * vx + vy * vy) ≤ MAX_SHIP_SPEED := not_lt.mp h
    have hsq := Real.sq_sqrt hs
    have h0 := Real.sqrt_nonneg (vx * vx + vy * vy)
    nlinarith [hsq, hle, h0, sq_nonneg (MAX_SHIP_SPEED - Real.sqrt (vx * vx + vy * vy))]

lemma tryFire_fst_fields (i : Fin 2) (fire c s : ℝ) (sh1 : Ship)
    (projs : List Projectile) :
    ((tryFire i fire c s sh1 projs).1).vx = sh1.vx ∧
      ((tryFire i fire c s sh1 projs).1).vy = sh1.vy ∧
      ((tryFire i fire c s sh1 projs).1).alive = sh1.alive := by
  rw [tryFire]
  split_ifs <;> exact ⟨rfl, rfl, rfl⟩

lemma updateShip_alive (dt : ℝ) (a : Fin 4 → ℝ) (i : Fin 2) (sh : Ship)
    (projs : List Projectile) :
    ((updateShip dt a i sh projs).1).alive = sh.alive := by
  cases hal : sh.alive with
  | false => simp [updateShip, hal]
  | true =>
    simp only [updateShip, hal, Bool.not_true, Bool.false_eq_true, if_false]
    rw [(tryFire_fst_fields _ _ _ _ _ _).2.2]

lemma updateShip_speed_le (dt : ℝ) (a : Fin 4 → ℝ) (i : Fin 2) (sh : Ship)
    (projs : List Projectile) (hal : sh.alive = true) :
    ((updateShip dt a i sh projs).1).vx ^ 2 + ((updateShip dt a i sh projs).1).vy ^ 2
      ≤ MAX_SHIP_SPEED ^ 2 := by
  simp only [updateShip, hal, Bool.not_true, Bool.false_eq_true, if_false]
  rw [(tryFire_fst_fields _ _ _ _ _ _).1, (tryFire_fst_fields _ _ _ _ _ _).2.1]
  exact capSpeed_sq_le _ _

lemma shipCollision_alive (s0 s1 : Ship) :
    ((shipCollision s0 s1).1).alive = s0.alive ∧
      ((shipCollision s0 s1).2).alive = s1.alive := by
  simp only [shipCollision]
  split_ifs <;> exact ⟨rfl, rfl⟩

/-- Equal-mass elastic exchange along a unit normal: each outgoing speed
squared is bounded by the sum of the two incoming speed bounds. -/
lemma bounce_speed_le (v0x v0y v1x v1y nx ny M : ℝ)
    (hn : nx ^ 2 + ny ^ 2 = 1)
    (h0 : v0x ^ 2 + v0y ^ 2 ≤ M ^ 2) (h1 : v1x ^ 2 + v1y ^ 2 ≤ M ^ 2) :
    (v0x - ((v0x - v1x) * nx + (v0y - v1y) * ny) * nx) ^ 2 +
        (v0y - ((v0x - v1x) * nx + (v0y - v1y) * ny) * ny) ^ 2 ≤ 2 * M ^ 2 ∧
      (v1x + ((v0x - v1x) * nx + (v0y - v1y) * ny) * nx) ^ 2 +
        (v1y + ((v0x - v1x) * nx + (v0y - v1y) * ny) * ny) ^ 2 ≤ 2 * M ^ 2 := by
  have e0 : (v0x ^ 2 + v0y ^ 2) * (nx ^ 2 + ny ^ 2) = v0x ^ 2 + v0y ^ 2 := by
    rw [hn]; ring
  have e1 : (v1x ^ 2 + v1y ^ 2) * (nx ^ 2 + ny ^ 2) = v1x ^ 2 + v1y ^ 2 := by
    rw [hn]; ring
  have lag0 : (v0x * nx + v0y * ny) ^ 2 + (v0x * ny - v0y * nx) ^ 2
      = (v0x ^ 2 + v0y ^ 2) * (nx ^ 2 + ny ^ 2) := by ring
  have lag1 : (v1x * nx + v1y * ny) ^ 2 + (v1x * ny - v1y * nx) ^ 2
      = (v1x ^ 2 + v1y ^ 2) * (nx ^ 2 + ny ^ 2) := by ring
  have hp : (v0x * nx + v0y * ny) ^ 2 ≤ v0x ^ 2 + v0y ^ 2 := by
    have := sq_nonneg (v0x * ny - v0y * nx)
    linarith [lag0, e0]
  have hq : (v1x * nx + v1y * ny) ^ 2 ≤ v1x ^ 2 + v1y ^ 2 := by
    have := sq_nonneg (v1x * ny - v1y * nx)
    linarith [lag1, e1]
  have key0 : (v0x - ((v0x - v1x) * nx + (v0y - v1y) * ny) * nx) ^ 2 +
      (v0y - ((v0x - v1x) * nx + (v0y - v1y) * ny) * ny) ^ 2
        = (v0x ^ 2 + v0y ^ 2) - (v0x * nx + v0y * ny) ^ 2 + (v1x * nx + v1y * ny) ^ 2 := by
    linear_combination (((v0x - v1x) * nx + (v0y - v1y) * ny) ^ 2) * hn
  have key1 : (v1x + ((v0x - v1x) * nx + (v0y - v1y) * ny) * nx) ^ 2 +
      (v1y + ((v0x - v1x) * nx + (v0y - v1y) * ny) * ny) ^ 2
        = (v1x ^ 2 + v1y ^ 2) - (v1x * nx + v1y * ny) ^ 2 + (v0x * nx + v0y * ny) ^ 2 := by
    linear_combination (((v0x - v1x) * nx + (v0y - v1y) * ny) ^ 2) * hn
  constructor
  · rw [key0]
    have := sq_nonneg (v0x * nx + v0y * ny)
    linarith [hq]
  · rw [key1]
    have := sq_nonneg (v1x * nx + v1y * ny)
    linarith [hp]

lemma shipCollision_speed_le (s0 s1 : Ship)
    (h0 : s0.alive = true → s0.vx ^ 2 + s0.vy ^ 2 ≤ MAX_SHIP_SPEED ^ 2)
    (h1 : s1.alive = true → s1.vx ^ 2 + s1.vy ^ 2 ≤ MAX_SHIP_SPEED ^ 2) :
    ((shipCollision s0 s1).1.alive = true →
        (shipCollision s0 s1).1.vx ^ 2 + (shipCollision s0 s1).1.vy ^ 2
          ≤ 2 * MAX_SHIP_SPEED ^ 2) ∧
      ((shipCollision s0 s1).2.alive = true →
        (shipCollision s0 s1).2.vx ^ 2 + (shipCollision s0 s1).2.vy ^ 2
          ≤ 2 * MAX_SHIP_SPEED ^ 2) := by
  have hM2 : (0:ℝ) ≤ MAX_SHIP_SPEED ^ 2 := by norm_num [MAX_SHIP_SPEED]
  simp only [shipCollision]
  split_ifs with hboth hclose hrel
  · obtain ⟨ha0, ha1⟩ := hboth
    have hb0 := h0 (by simpa using ha0)
    have hb1 := h1 (by simpa using ha1)
    set dx := toroidal_diff s0.x s1.x ARENA_WIDTH with hdx
    set dy := toroidal_diff s0.y s1.y ARENA_HEIGHT with hdy
    have hdpos : (0:ℝ) < dx * dx + dy * dy := lt_trans (by norm_num) hclose.2
    have hD2 : Real.sqrt (dx * dx + dy * dy) ^ 2 = dx * dx + dy * dy :=
      Real.sq_sqrt hdpos.le
    have hDne : Real.sqrt (dx * dx + dy * dy) ≠ 0 :=
      (Real.sqrt_pos.mpr hdpos).ne'
    have hn : (dx / Real.sqrt (dx * dx + dy * dy)) ^ 2 +
        (dy / Real.sqrt (dx * dx + dy * dy)) ^ 2 = 1 := by
      rw [div_pow, div_pow, hD2, div_add_div_same, div_eq_one_iff_eq hdpos.ne']
      ring
    refine ⟨fun _ => ?_, fun _ => ?_⟩
    · exact (bounce_speed_le s0.vx s0.vy s1.vx s1.vy _ _ MAX_SHIP_SPEED hn hb0 hb1).1
    · exact (bounce_speed_le s0.vx s0.vy s1.vx s1.vy _ _ MAX_SHIP_SPEED hn hb0 hb1).2
  · refine ⟨fun ha => ?_, fun ha => ?_⟩
    · have := h0 ha
      linarith
    · have := h1 ha
      linarith
  · refine ⟨fun ha => ?_, fun ha => ?_⟩
    · have := h0 ha
      linarith
    · have := h1 ha
      linarith
  · refine ⟨fun ha => ?_, fun ha => ?_⟩
    · have := h0 ha
      linarith
    · have := h1 ha
      linarith

lemma other_ne (i : Fin 2) : other i ≠ i := by
  fin_cases i <;> decide

lemma projHitStep_fields (acc : (Fin 2 → Ship) × List ℕ) (e : ℕ × Projectile)
    (j : Fin 2) :
    ((projHitStep acc e).1 j).vx = (acc.1 j).vx ∧
      ((projHitStep acc e).1 j).vy = (acc.1 j).vy ∧
      (((projHitStep acc e).1 j).alive = true → (acc.1 j).alive = true) := by
  simp only [projHitStep]
  split_ifs with h1 h2
  · exact ⟨rfl, rfl, id⟩
  · have hto : other e.2.owner ≠ e.2.owner := other_ne _
    simp only [Function.update_apply]
    by_cases hj1 : j = e.2.owner
    · subst hj1
      rw [if_pos rfl, if_neg (Ne.symm hto)]
      exact ⟨rfl, rfl, id⟩
    · rw [if_neg hj1]
      by_cases hj2 : j = other e.2.owner
      · subst hj2
        rw [if_pos rfl]
        exact ⟨rfl, rfl, fun hfalse => by simp at hfalse⟩
      · rw [if_neg hj2]
        exact ⟨rfl, rfl, id⟩
  · exact ⟨rfl, rfl, id⟩

lemma foldl_projHitStep_fields (l : List (ℕ × Projectile))
    (acc : (Fin 2 → Ship) × List ℕ) (j : Fin 2) :
    ((l.foldl projHitStep acc).1 j).vx = (acc.1 j).vx ∧
      ((l.foldl projHitStep acc).1 j).vy = (acc.1 j).vy ∧
      (((l.foldl projHitStep acc).1 j).alive = true → (acc.1 j).alive = true) := by
  induction l generalizing acc with
  | nil => exact ⟨rfl, rfl, id⟩
  | cons e t ih =>
    simp only [List.foldl_cons]
    obtain ⟨i1, i2, i3⟩ := ih (projHitStep acc e)
    obtain ⟨g1, g2, g3⟩ := projHitStep_fields acc e j
    exact ⟨i1.trans g1, i2.trans g2, fun ha => g3 (i3 ha)⟩

lemma projCollisions_fields (ships : Fin 2 → Ship) (ps : List Projectile)
    (j : Fin 2) :
    (((projCollisions ships ps).1) j).vx = (ships j).vx ∧
      (((projCollisions ships ps).1) j).vy = (ships j).vy ∧
      ((((projCollisions ships ps).1) j).alive = true → (ships j).alive = true) :=
  foldl_projHitStep_fields ps.enum (ships, []) j

lemma shipsMid_zero (s : GameState) (dt : ℝ) (actions : Fin 2 → Fin 4 → ℝ) :
    shipsMid s dt actions 0 = (collPhase s dt actions).1 := rfl

lemma shipsMid_one (s : GameState) (dt : ℝ) (actions : Fin 2 → Fin 4 → ℝ) :
    shipsMid s dt actions 1 = (collPhase s dt actions).2 := rfl

lemma update_ships_eq (s : GameState) (dt : ℝ) (actions : Fin 2 → Fin 4 → ℝ)
    (hov : s.match_over = false) :
    (s.update dt actions).ships = (hitPhase s dt actions).1 := by
  rw [GameState.update, if_neg (by simp [hov])]
  simp only []
  split_ifs <;> rfl

/-- The full-update speed bound: for a not-yet-finished state, every ship
that is alive after `update` has speed at most `√2 · MAX_SHIP_SPEED`. -/
lemma update_alive_speed (s : GameState) (dt : ℝ) (actions : Fin 2 → Fin 4 → ℝ)
    (i : Fin 2) (hov : s.match_over = false)
    (hal : ((s.update dt actions).ships i).alive = true) :
    ((s.update dt actions).ships i).vx ^ 2 + ((s.update dt actions).ships i).vy ^ 2
      ≤ 2 * MAX_SHIP_SPEED ^ 2 := by
  rw [update_ships_eq s dt actions hov] at hal ⊢
  rw [hitPhase] at hal ⊢
  obtain ⟨hvx, hvy, hmono⟩ :=
    projCollisions_fields (shipsMid s dt actions) (projPhase s dt actions) i
  rw [hvx, hvy]
  have halA := hmono hal
  have hb0 : (shipPhase0 s dt actions).1.alive = true →
      (shipPhase0 s dt actions).1.vx ^ 2 + (shipPhase0 s dt actions).1.vy ^ 2
        ≤ MAX_SHIP_SPEED ^ 2 := by
    rw [shipPhase0]
    intro h
    exact updateShip_speed_le _ _ _ _ _ ((updateShip_alive _ _ _ _ _).symm.trans h)
  have hb1 : (shipPhase1 s dt actions).1.alive = true →
      (shipPhase1 s dt actions).1.vx ^ 2 + (shipPhase1 s dt actions).1.vy ^ 2
        ≤ MAX_SHIP_SPEED ^ 2 := by
    rw [shipPhase1]
    intro h
    exact updateShip_speed_le _ _ _ _ _ ((updateShip_alive _ _ _ _ _).symm.trans h)
  have hsc := shipCollision_speed_le (shipPhase0 s dt actions).1
    (shipPhase1 s dt actions).1 hb0 hb1
  fin_cases i
  · simp only [Fin.zero_eta] at halA ⊢
    rw [shipsMid_zero] at halA ⊢
    rw [collPhase] at halA ⊢
    exact hsc.1 halA
  · simp only [Fin.mk_one] at halA ⊢
    rw [shipsMid_one] at halA ⊢
    rw [collPhase] at halA ⊢
    exact hsc.2 halA

lemma bounceDemo_ship0 : (bounceDemo.update (1/60) zeroActs).ships 0 =
    ⟨117, 304.9, 294, 294, 0, true, 0, 0, 0⟩ := by
  rw [update_ships_eq _ _ _ rfl, hitPhase]
  have hp : projPhase bounceDemo (1/60) zeroActs = [] := by
    rw [projPhase, bounce1_step]
    rfl
  rw [hp]
  have hpc : projCollisions (shipsMid bounceDemo (1/60) zeroActs) [] =
      (shipsMid bounceDemo (1/60) zeroActs, []) := rfl
  rw [hpc]
  show shipsMid bounceDemo (1/60) zeroActs 0 = _
  rw [shipsMid_zero, collPhase, bounce0_step, bounce1_step, bounceColl]

lemma dead0_step : shipPhase0 deadOwnerDemo (1/60) zeroActs =
    (⟨200, 300, 0, 0, 0, false, 0, 0, 0⟩, [⟨400, 300, 0, 0, 1, 0⟩]) := by
  rw [shipPhase0, updateShip_dead _ _ _ _ _ rfl]
  rfl

lemma sqrt_00 : Real.sqrt ((0:ℝ) * 0 + 0 * 0) = 0 := by
  rw [show ((0:ℝ) * 0 + 0 * 0) = 0 by norm_num, Real.sqrt_zero]

lemma dead1_step : shipPhase1 deadOwnerDemo (1/60) zeroActs =
    (⟨400, 300, 0, 0, 0, true, 0, 0, 0⟩, [⟨400, 300, 0, 0, 1, 0⟩]) := by
  have h1 : deadOwnerDemo.ships 1 = ⟨400, 300, 0, 0, 0, true, 0, 0, 0⟩ := rfl
  have hacts : zeroActs 1 = (fun _ => 0) := rfl
  rw [shipPhase1, dead0_step, hacts, h1, updateShip_zero_actions _ _ _ _ rfl]
  have hdrag : Real.rpow SHIP_DRAG ((1/60 : ℝ) * 60) = 0.98 := by
    norm_num [SHIP_DRAG]
  rw [hdrag]
  norm_num
  rw [capSpeed_of_le (by rw [sqrt_00]; norm_num [MAX_SHIP_SPEED])]
  norm_num [wrap, rustRem, rustTrunc, ARENA_WIDTH, ARENA_HEIGHT]

lemma deadColl : collPhase deadOwnerDemo (1/60) zeroActs =
    (⟨200, 300, 0, 0, 0, false, 0, 0, 0⟩, ⟨400, 300, 0, 0, 0, true, 0, 0, 0⟩) := by
  rw [collPhase, dead0_step, dead1_step]
  exact shipCollision_dead0 _ _ rfl

lemma deadProjPhase : projPhase deadOwnerDemo (1/60) zeroActs =
    [⟨400, 300, 0, 0, 59/60, 0⟩] := by
  rw [projPhase, dead1_step]
  show (([(⟨400, 300, 0, 0, 1, 0⟩ : Projectile)].map (moveProj (1/60))).filter
    (fun p => p.lifetime > 0)) = _
  rw [List.map_cons, List.map_nil]
  have hm : moveProj (1/60) (⟨400, 300, 0, 0, 1, 0⟩ : Projectile) =
      ⟨400, 300, 0, 0, 59/60, 0⟩ := by
    rw [moveProj]
    norm_num [wrap, rustRem, rustTrunc, ARENA_WIDTH, ARENA_HEIGHT]
  rw [hm, List.filter_cons]
  rw [if_pos (by norm_num)]
  rfl

lemma deadHit :
    (hitPhase deadOwnerDemo (1/60) zeroActs).1 0 = ⟨200, 300, 0, 0, 0, false, 0, 0, 1⟩ ∧
      (hitPhase deadOwnerDemo (1/60) zeroActs).1 1 = ⟨400, 300, 0, 0, 0, false, 0, 0, 0⟩ ∧
      (hitPhase deadOwnerDemo (1/60) zeroActs).2 = [0] := by
  rw [hitPhase, deadProjPhase]
  have henum : ([(⟨400, 300, 0, 0, 59/60, 0⟩ : Projectile)]).enum =
      [(0, ⟨400, 300, 0, 0, 59/60, 0⟩)] := rfl
  rw [projCollisions, henum, List.foldl_cons, List.foldl_nil]
  have hother : other (0 : Fin 2) = 1 := rfl
  have hsm1 : shipsMid deadOwnerDemo (1/60) zeroActs 1 =
      ⟨400, 300, 0, 0, 0, true, 0, 0, 0⟩ := by
    rw [shipsMid_one, deadColl]
  have hsm0 : shipsMid deadOwnerDemo (1/60) zeroActs 0 =
      ⟨200, 300, 0, 0, 0, false, 0, 0, 0⟩ := by
    rw [shipsMid_zero, deadColl]
  rw [projHitStep]
  simp only [hother]
  rw [hsm1]
  simp only [Bool.not_true, Bool.false_eq_true, if_false]
  have hdx : toroidal_diff (400:ℝ) 400 ARENA_WIDTH = 0 := by
    norm_num [toroidal_diff, ARENA_WIDTH]
  have hdy : toroidal_diff (300:ℝ) 300 ARENA_HEIGHT = 0 := by
    norm_num [toroidal_diff, ARENA_HEIGHT]
  rw [hdx, hdy, if_pos (by norm_num [SHIP_RADIUS, PROJECTILE_RADIUS])]
  have hsm0' : shipsMid deadOwnerDemo (60:ℝ)⁻¹ zeroActs 0 =
      (⟨200, 300, 0, 0, 0, false, 0, 0, 0⟩ : Ship) := by
    rw [show ((60:ℝ)⁻¹) = 1/60 by norm_num]
    exact hsm0
  have hsm1' : shipsMid deadOwnerDemo (60:ℝ)⁻¹ zeroActs 1 =
      (⟨400, 300, 0, 0, 0, true, 0, 0, 0⟩ : Ship) := by
    rw [show ((60:ℝ)⁻¹) = 1/60 by norm_num]
    exact hsm1
  refine ⟨?_, ?_, rfl⟩
  · simp [Function.update_apply, hother, hsm0, hsm0']
  · simp [Function.update_apply, hsm1, hsm1']

lemma deadOwnerDemo_eval :
    ((deadOwnerDemo.update (1/60) zeroActs).ships 1).alive = false ∧
      ((deadOwnerDemo.update (1/60) zeroActs).ships 0).alive = false ∧
      ((deadOwnerDemo.update (1/60) zeroActs).ships 0).hits_scored = 1 ∧
      (deadOwnerDemo.update (1/60) zeroActs).match_over = true ∧
      (deadOwnerDemo.update (1/60) zeroActs).winner = none := by
  obtain ⟨hh0, hh1, hdead⟩ := deadHit
  have hh0i : (hitPhase deadOwnerDemo (60:ℝ)⁻¹ zeroActs).1 0 =
      (⟨200, 300, 0, 0, 0, false, 0, 0, 1⟩ : Ship) := by
    rw [show ((60:ℝ)⁻¹) = 1/60 by norm_num]
    exact hh0
  have hh1i : (hitPhase deadOwnerDemo (60:ℝ)⁻¹ zeroActs).1 1 =
      (⟨400, 300, 0, 0, 0, false, 0, 0, 0⟩ : Ship) := by
    rw [show ((60:ℝ)⁻¹) = 1/60 by norm_num]
    exact hh1
  rw [GameState.update, if_neg (by simp [deadOwnerDemo])]
  simp only []
  rw [hh0, hh1]
  rw [if_pos (Or.inl (by simp [List.filter]))]
  refine ⟨by simp [hh1, hh1i], by simp [hh0, hh0i], by simp [hh0, hh0i], rfl, ?_⟩
  simp [deadOwnerDemo, hh0, hh1, hh0i, hh1i]

end DuelSim

namespace DuelSim

/-- C9: for every `v` and every `m > 0`, `wrap v m` lies in `[0, m)` and
`wrap` is idempotent: `wrap (wrap v m) m = wrap v m`. -/
theorem wrap_mem_Ico_and_idem (v m : ℝ) (hm : 0 < m) :
    (0 ≤ wrap v m ∧ wrap v m < m) ∧ wrap (wrap v m) m = wrap v m :=
  ⟨wrap_bounds v m hm, wrap_idem v m hm⟩

theorem wrap_mem_Ico_and_idem_witness :
    (0:ℝ) < 10 ∧
      ((0 ≤ wrap (-3) 10 ∧ wrap (-3) 10 < 10) ∧
        wrap (wrap (-3) 10) 10 = wrap (-3) 10) :=
  ⟨by norm_num, wrap_mem_Ico_and_idem (-3) 10 (by norm_num)⟩

/-- C8 counterexample: the claimed interval `(−max/2, max/2]` is wrong.
At `a = 0, b = 5, max = 10` the result is exactly `−max/2`, outside the
claimed half-open interval, and at `a = 1000, b = 0, max = 10` the result
is `990`, far outside it (the function performs a single wrap correction
only). -/
theorem toroidal_diff_interval_counterexample :
    (toroidal_diff 0 5 10 = -5 ∧ ¬ (-(10 / 2) < toroidal_diff 0 5 10)) ∧
      (toroidal_diff 1000 0 10 = 990 ∧ ¬ (toroidal_diff 1000 0 10 ≤ 10 / 2)) := by
  constructor
  · constructor
    · norm_num [toroidal_diff]
    · norm_num [toroidal_diff]
  · constructor
    · norm_num [toroidal_diff]
    · norm_num [toroidal_diff]

/-- C8 (amended): for `max > 0`, `toroidal_diff` is antisymmetric for all
inputs, and for inputs already wrapped into `[0, max)` its value lies in the
closed interval `[−max/2, max/2]`. -/
theorem toroidal_diff_antisymm_and_range (a b m : ℝ) (hm : 0 < m) :
    toroidal_diff a b m = -toroidal_diff b a m ∧
      (0 ≤ a → a < m → 0 ≤ b → b < m →
        -m / 2 ≤ toroidal_diff a b m ∧ toroidal_diff a b m ≤ m / 2) :=
  ⟨toroidal_diff_antisymm a b m hm,
    fun ha0 ha1 hb0 hb1 => toroidal_diff_range ha0 ha1 hb0 hb1⟩

/-- C3: once `match_over` holds, `update` only advances the elapsed-time
field by `dt` and leaves every other field (ships, projectiles, `match_over`,
`winner`) unchanged; in particular `match_over` stays `true`, so the Over
state is terminal. -/
theorem update_after_match_over (s : GameState) (dt : ℝ)
    (actions : Fin 2 → Fin 4 → ℝ) (h : s.match_over = true) :
    s.update dt actions = { s with time := s.time + dt } ∧
      (s.update dt actions).match_over = true := by
  have heq : s.update dt actions = { s with time := s.time + dt } := by
    rw [GameState.update, if_pos h]
  exact ⟨heq, by rw [heq]; exact h⟩

theorem update_after_match_over_witness :
    overDemo.match_over = true ∧
      (overDemo.update 1 (fun _ _ => 0) = { overDemo with time := overDemo.time + 1 } ∧
        (overDemo.update 1 (fun _ _ => 0)).match_over = true) :=
  ⟨rfl, update_after_match_over overDemo 1 (fun _ _ => 0) rfl⟩

/-- C1 counterexample: the speed cap is not an invariant of `update`.  In
`bounceDemo` (a running state, both ships alive and below the cap) one
`update` at `dt = 1/60` leaves ship 0 alive with speed² `= 172872`, i.e.
speed `> MAX_SHIP_SPEED + 100` — the elastic ship-ship exchange runs after
the cap step and may exceed the cap.  Moreover, on an already-over state
(`frozenFast`) `update` leaves an alive ship at speed 1000 untouched. -/
theorem speed_cap_counterexample :
    (bounceDemo.match_over = false ∧
      ((bounceDemo.update (1/60) zeroActs).ships 0).alive = true ∧
      ((bounceDemo.update (1/60) zeroActs).ships 0).vx ^ 2 +
          ((bounceDemo.update (1/60) zeroActs).ships 0).vy ^ 2 = 172872 ∧
      MAX_SHIP_SPEED + 100 <
        Real.sqrt (((bounceDemo.update (1/60) zeroActs).ships 0).vx ^ 2 +
          ((bounceDemo.update (1/60) zeroActs).ships 0).vy ^ 2)) ∧
    (frozenFast.match_over = true ∧
      ((frozenFast.update 1 zeroActs).ships 0).alive = true ∧
      ((frozenFast.update 1 zeroActs).ships 0).vx = 1000) := by
  refine ⟨⟨rfl, ?_, ?_, ?_⟩, rfl, rfl, rfl⟩
  · rw [bounceDemo_ship0]
  · rw [bounceDemo_ship0]
    norm_num
  · rw [bounceDemo_ship0]
    have he : ((⟨117, 304.9, 294, 294, 0, true, 0, 0, 0⟩ : Ship)).vx ^ 2 +
        ((⟨117, 304.9, 294, 294, 0, true, 0, 0, 0⟩ : Ship)).vy ^ 2 = 172872 := by
      norm_num
    rw [he]
    have h400 : (400:ℝ) = Real.sqrt 160000 := by
      rw [show (160000:ℝ) = 400 ^ 2 by norm_num,
        Real.sqrt_sq (by norm_num : (0:ℝ) ≤ 400)]
    have hlt : Real.sqrt 160000 < Real.sqrt 172872 :=
      Real.sqrt_lt_sqrt (by norm_num) (by norm_num)
    rw [show MAX_SHIP_SPEED + 100 = (400:ℝ) by norm_num [MAX_SHIP_SPEED], h400]
    exact hlt

/-- C1 (amended): for every state whose match is not already over, every
ship still alive after `update(dt, actions)` has speed at most
`√2 · MAX_SHIP_SPEED` (speed² `≤ 2 · MAX_SHIP_SPEED²`); and the speed-cap
step itself (`capSpeed`) always returns a velocity of norm at most
`MAX_SHIP_SPEED`.  The elastic ship-ship exchange, which runs after the
cap, is what can push an alive ship's speed above the cap, by a factor of
at most `√2`. -/
theorem speed_cap_amended (s : GameState) (dt : ℝ) (actions : Fin 2 → Fin 4 → ℝ)
    (i : Fin 2) (hov : s.match_over = false)
    (hal : ((s.update dt actions).ships i).alive = true) :
    ((s.update dt actions).ships i).vx ^ 2 + ((s.update dt actions).ships i).vy ^ 2
        ≤ 2 * MAX_SHIP_SPEED ^ 2 ∧
      ∀ vx vy : ℝ, (capSpeed vx vy).1 ^ 2 + (capSpeed vx vy).2 ^ 2
        ≤ MAX_SHIP_SPEED ^ 2 :=
  ⟨update_alive_speed s dt actions i hov hal, fun vx vy => capSpeed_sq_le vx vy⟩

theorem speed_cap_amended_witness :
    bounceDemo.match_over = false ∧
      ((bounceDemo.update (1/60) zeroActs).ships 0).alive = true ∧
      ((bounceDemo.update (1/60) zeroActs).ships 0).vx ^ 2 +
          ((bounceDemo.update (1/60) zeroActs).ships 0).vy ^ 2
        ≤ 2 * MAX_SHIP_SPEED ^ 2 :=
  ⟨rfl, by rw [bounceDemo_ship0],
    (speed_cap_amended bounceDemo (1/60) zeroActs 0 rfl (by rw [bounceDemo_ship0])).1⟩

/-- C4: in every reachable `GameState`, each ship index owns at most
`MAX_PROJECTILES_PER_SHIP` live projectiles; `update` spawns a projectile
for ship `i` only when the count of projectiles with `owner == i` is
strictly below the cap. -/
theorem projectile_cap (s : GameState) (o : Fin 2) (h : Reachable s) :
    s.projectiles.countP (fun p => p.owner == o) ≤ MAX_PROJECTILES_PER_SHIP :=
  projCap_reachable s o h

theorem projectile_cap_witness :
    GameState.new.projectiles.countP (fun p => p.owner == (0 : Fin 2))
      ≤ MAX_PROJECTILES_PER_SHIP :=
  projectile_cap GameState.new 0 Reachable.new_fixed

/-- C10: projectile-ship collision is tested against the non-owning ship
regardless of whether the owner is still alive.  In `deadOwnerDemo` ship 0
is already dead while one of its projectiles overlaps the alive ship 1:
one `update` kills ship 1, credits the dead owner's `hits_scored`, ends
the match with both ships dead, and leaves `winner` unset. -/
theorem dead_owner_projectile_still_kills :
    (deadOwnerDemo.ships 0).alive = false ∧
      deadOwnerDemo.match_over = false ∧
      deadOwnerDemo.projectiles.map (fun p => p.owner) = [0] ∧
      ((deadOwnerDemo.update (1/60) zeroActs).ships 1).alive = false ∧
      ((deadOwnerDemo.update (1/60) zeroActs).ships 0).alive = false ∧
      ((deadOwnerDemo.update (1/60) zeroActs).ships 0).hits_scored = 1 ∧
      (deadOwnerDemo.update (1/60) zeroActs).match_over = true ∧
      (deadOwnerDemo.update (1/60) zeroActs).winner = none :=
  ⟨rfl, rfl, rfl, deadOwnerDemo_eval.1, deadOwnerDemo_eval.2.1,
    deadOwnerDemo_eval.2.2.1, deadOwnerDemo_eval.2.2.2.1,
    deadOwnerDemo_eval.2.2.2.2⟩

/-- C2: in every reachable `GameState`, the `winner` field is `some i` only
when `match_over` is `true` and ship `i` is the exactly-one alive ship;
otherwise (simultaneous death, or timeout with both alive) it is `none`.
Hence no `update` call sets `winner` while both ships are alive or both are
dead. -/
theorem winner_only_sole_survivor (s : GameState) (h : Reachable s) :
    WinnerInv s :=
  winnerInv_reachable s h

theorem winner_only_sole_survivor_witness : WinnerInv GameState.new :=
  winner_only_sole_survivor GameState.new Reachable.new_fixed

/-- C7: `Genome::mutate` with `rate = 0` leaves the weight vector unchanged;
with `rate = 1` and `strength > 0` every weight receives an additive
perturbation whose magnitude is at most `strength` and the result is
clamped to `[-3, 3]`, so every post-mutation weight lies in `[-3, 3]`. -/
theorem mutate_zero_noop_one_perturbs :
    (∀ (g : Genome) (strength : ℝ) (rng : Rng),
        ((g.mutate 0 strength rng).1).weights = g.weights) ∧
      ∀ (g : Genome) (strength : ℝ) (rng : Rng), 0 < strength →
        ((g.mutate 1 strength rng).1).weights.length = g.weights.length ∧
        ∀ k, k < g.weights.length → ∃ δ : ℝ, -strength ≤ δ ∧ δ ≤ strength ∧
          ((g.mutate 1 strength rng).1).weights.getD k 0 =
            rclamp (g.weights.getD k 0 + δ) (-3) 3 ∧
          -3 ≤ ((g.mutate 1 strength rng).1).weights.getD k 0 ∧
          ((g.mutate 1 strength rng).1).weights.getD k 0 ≤ 3 := by
  constructor
  · intro g s rng
    have hw : ((g.mutate 0 s rng).1).weights =
        (g.weights.foldl (mutateStep 0 s) ([], rng)).1 := rfl
    rw [hw, mutate_zero_foldl]
    simp
  · intro g s rng hs
    obtain ⟨hlen, hpre, hpos⟩ := mutate_one_foldl s hs g.weights [] rng
    have hw : ((g.mutate 1 s rng).1).weights =
        (g.weights.foldl (mutateStep 1 s) ([], rng)).1 := rfl
    constructor
    · rw [hw, hlen]
      simp
    · intro k hk
      obtain ⟨δ, h1, h2, heq⟩ := hpos k hk
      have heq' : ((g.mutate 1 s rng).1).weights.getD k 0 =
          rclamp (g.weights.getD k 0 + δ) (-3) 3 := by
        rw [hw]
        simpa using heq
      obtain ⟨hb1, hb2⟩ := rclamp_mem (g.weights.getD k 0 + δ) (-3) 3 (by norm_num)
      exact ⟨δ, h1, h2, heq', by rw [heq']; exact hb1, by rw [heq']; exact hb2⟩

theorem mutate_zero_noop_one_perturbs_witness :
    ((Genome.mutate ⟨[0], 0⟩ 0 1 demoRng).1).weights = (⟨[0], 0⟩ : Genome).weights ∧
      (0:ℝ) < 1 ∧
      ((Genome.mutate ⟨[0], 0⟩ 1 1 demoRng).1).weights.length =
        (⟨[0], 0⟩ : Genome).weights.length :=
  ⟨mutate_zero_noop_one_perturbs.1 ⟨[0], 0⟩ 1 demoRng, by norm_num,
    (mutate_zero_noop_one_perturbs.2 ⟨[0], 0⟩ 1 demoRng (by norm_num)).1⟩

/-- C6: for every population of exactly `POPULATION_SIZE` genomes,
`Population::evolve` keeps the genome count at `POPULATION_SIZE`,
increments the generation counter by 1, and places the top `ELITE_COUNT`
genomes of the fitness-descending stable sort into the next generation
verbatim except that their fitness is reset to 0 (no mutation is applied
to them); the sort is a permutation of the population ordered descending
by fitness. -/
theorem evolve_invariants (p : Population) (rng : Rng)
    (h : p.genomes.length = POPULATION_SIZE) :
    ((p.evolve rng).1).genomes.length = POPULATION_SIZE ∧
      ((p.evolve rng).1).generation = p.generation + 1 ∧
      ((p.evolve rng).1).genomes.take ELITE_COUNT =
        ((sortDescByFitness p.genomes).take ELITE_COUNT).map
          (fun g => { g with fitness := 0 }) ∧
      (sortDescByFitness p.genomes).Perm p.genomes ∧
      (sortDescByFitness p.genomes).Pairwise (fun a b => b.fitness ≤ a.fitness) := by
  have hsortlen : (sortDescByFitness p.genomes).length = POPULATION_SIZE := by
    rw [(sortDescByFitness_perm p.genomes).length_eq, h]
  have helitelen : (((sortDescByFitness p.genomes).take ELITE_COUNT).map
      (fun g => { g with fitness := (0:ℝ) })).length = ELITE_COUNT := by
    rw [List.length_map, List.length_take, hsortlen]
    decide
  have hgen : ((p.evolve rng).1).genomes =
      (fillChildren (sortDescByFitness p.genomes)
        (POPULATION_SIZE - (((sortDescByFitness p.genomes).take ELITE_COUNT).map
          (fun g => { g with fitness := (0:ℝ) })).length)
        (((sortDescByFitness p.genomes).take ELITE_COUNT).map
          (fun g => { g with fitness := (0:ℝ) })) rng).1 := rfl
  refine ⟨?_, rfl, ?_, sortDescByFitness_perm _, sortDescByFitness_sorted _⟩
  · rw [hgen, fillChildren_length, helitelen]
    decide
  · rw [hgen]
    obtain ⟨ext, hext⟩ := fillChildren_prefix (sortDescByFitness p.genomes)
      (POPULATION_SIZE - (((sortDescByFitness p.genomes).take ELITE_COUNT).map
        (fun g => { g with fitness := (0:ℝ) })).length)
      (((sortDescByFitness p.genomes).take ELITE_COUNT).map
        (fun g => { g with fitness := (0:ℝ) })) rng
    rw [hext]
    exact List.take_left' helitelen

theorem evolve_invariants_witness :
    demoPop.genomes.length = POPULATION_SIZE ∧
      (((demoPop.evolve demoRng).1).genomes.length = POPULATION_SIZE ∧
        ((demoPop.evolve demoRng).1).generation = demoPop.generation + 1 ∧
        ((demoPop.evolve demoRng).1).genomes.take ELITE_COUNT =
          ((sortDescByFitness demoPop.genomes).take ELITE_COUNT).map
            (fun g => { g with fitness := 0 }) ∧
        (sortDescByFitness demoPop.genomes).Perm demoPop.genomes ∧
        (sortDescByFitness demoPop.genomes).Pairwise
          (fun a b => b.fitness ≤ a.fitness)) :=
  ⟨by simp [demoPop], evolve_invariants demoPop demoRng (by simp [demoPop])⟩

/-- C5: `Population::evaluate` first resets every genome's fitness to 0,
so its result does not depend on the incoming fitness values; and the
opponent draw `j = gen_range(0..POPULATION_SIZE-1)` adjusted by
`if j >= i { j += 1 }` can never equal `i` and maps the draw space
bijectively onto the population indices excluding `i` (uniform draws give
a uniform opponent over the population minus self, structurally). -/
theorem evaluate_resets_and_opponent_excludes_self :
    (∀ (p : Population) (rng : Rng) (φ : Genome → ℝ),
        Population.evaluate
          { genomes := p.genomes.map (fun g => { g with fitness := φ g }),
            generation := p.generation, best_fitness := p.best_fitness } rng =
          Population.evaluate p rng) ∧
      (∀ i d : ℕ, d < POPULATION_SIZE - 1 →
        opponentIndex i d ≠ i ∧ opponentIndex i d < POPULATION_SIZE) ∧
      ∀ i : ℕ, i < POPULATION_SIZE →
        Set.BijOn (opponentIndex i) {d : ℕ | d < POPULATION_SIZE - 1}
          {k : ℕ | k < POPULATION_SIZE ∧ k ≠ i} := by
  refine ⟨?_, ?_, ?_⟩
  · intro p rng φ
    rw [Population.evaluate, Population.evaluate]
    simp only []
    have hmap : (p.genomes.map (fun g => { g with fitness := φ g })).map
        (fun g => { g with fitness := (0:ℝ) }) =
        p.genomes.map (fun g => { g with fitness := (0:ℝ) }) := by
      have hfun : ((fun g => { g with fitness := (0:ℝ) }) ∘
          (fun g : Genome => { g with fitness := φ g })) =
          (fun g : Genome => { g with fitness := (0:ℝ) }) := by
        funext g
        cases g
        rfl
      rw [List.map_map, hfun]
    rw [hmap]
  · intro i d hd
    simp only [opponentIndex]
    split_ifs with hge <;> constructor <;> omega
  · intro i hi
    refine ⟨?_, ?_, ?_⟩
    · intro d hd
      simp only [Set.mem_setOf_eq] at hd ⊢
      simp only [opponentIndex]
      split_ifs with hge <;> constructor <;> omega
    · intro d1 h1 d2 h2 heq
      simp only [Set.mem_setOf_eq] at h1 h2
      simp only [opponentIndex] at heq
      split_ifs at heq <;> omega
    · intro k hk
      simp only [Set.mem_setOf_eq] at hk
      by_cases hki : k < i
      · refine ⟨k, ?_, ?_⟩
        · simp only [Set.mem_setOf_eq]
          omega
        · simp only [opponentIndex]
          rw [if_neg (by omega)]
      · refine ⟨k - 1, ?_, ?_⟩
        · simp only [Set.mem_setOf_eq]
          omega
        · simp only [opponentIndex]
          rw [if_pos (by omega)]
          omega

theorem evaluate_resets_and_opponent_excludes_self_witness :
    (3 : ℕ) < POPULATION_SIZE - 1 ∧
      (opponentIndex 0 3 ≠ 0 ∧ opponentIndex 0 3 < POPULATION_SIZE) :=
  ⟨by decide, evaluate_resets_and_opponent_excludes_self.2.1 0 3 (by decide)⟩

theorem toroidal_diff_antisymm_and_range_witness :
    (0:ℝ) < 10 ∧ 0 ≤ (1:ℝ) ∧ (1:ℝ) < 10 ∧ 0 ≤ (2:ℝ) ∧ (2:ℝ) < 10 ∧
      (toroidal_diff 1 2 10 = -toroidal_diff 2 1 10 ∧
        (-10 / 2 ≤ toroidal_diff 1 2 10 ∧ toroidal_diff 1 2 10 ≤ 10 / 2)) :=
  ⟨by norm_num, by norm_num, by norm_num, by norm_num, by norm_num,
    ⟨(toroidal_diff_antisymm_and_range 1 2 10 (by norm_num)).1,
      (toroidal_diff_antisymm_and_range 1 2 10 (by norm_num)).2
        (by norm_num) (by norm_num) (by norm_num) (by norm_num)⟩⟩

end DuelSim

end
